import Mathlib

/-!
Verification of the lease-based leader-election readiness probe
(`jobs/switchboard-leader/templates/readiness-switchboard.sh`).

The script coordinates N replicas through a single value stored on a shared
service object (the `skiff-leader` marking).  We embed the script shallowly:
the store is an `Option String`, each kubectl call is modelled by a function
that may fail according to an injected failure flag, and the `claim` routine
and the top-level decision are translated branch by branch.  Concurrent
writers during the grace sleep are modelled by an arbitrary `interfere`
function applied to the store between the claim write and the re-verifying
read.  Time is the single `now` sampled for the invocation.
-/

namespace SwitchboardLeader

/-- The shared lease store: the value of the `skiff-leader` key on the
service, if present. -/
abbrev Store := Option String

/-- First `:`-separated field of a value, as the `awk -F:` field `$1`
extracts it (the whole string when there is no `:`; values are assumed free
of whitespace, as the claim values written by the script are). -/
def field1 (s : String) : String :=
  String.mk (s.data.takeWhile (fun c => c != ':'))

/-- Second `:`-separated field of a value, as the `awk -F:` field `$2`
extracts it (empty when there is no `:`). -/
def field2 (s : String) : String :=
  String.mk (((s.data.dropWhile (fun c => c != ':')).drop 1).takeWhile (fun c => c != ':'))

/-- Decimal value of a digit string, most significant first. -/
def digitsVal (l : List Char) : Nat :=
  l.foldl (fun n c => n * 10 + (c.toNat - Char.toNat '0')) 0

/-- Value of a string in shell arithmetic context `$(( s + D ))`: a string of
digits denotes itself; a non-numeric field behaves like an unset shell
variable and evaluates to 0. -/
def shellNat (s : String) : Nat :=
  if s.data ≠ [] ∧ s.data.all Char.isDigit then digitsVal s.data else 0

/-- One observable operation against the lease store: a kubectl `get`, an
`annotate` writing a value, or an `annotate key-` removing it. -/
inductive Op where
  | get : Op
  | set : String → Op
  | clear : Op
deriving DecidableEq, Repr

/-- Environment of one invocation: the identity `H` (`$HOSTNAME`), the
renewal window `D`, the sampled clock `now`, the store contents at entry,
one failure flag per kubectl call site, and the interference of concurrent
writers during the `sleep 1` grace window. -/
structure Env where
  H : String
  D : Nat
  now : Nat
  store0 : Store
  get1Fails : Bool
  extendFails : Bool
  clearFails : Bool
  makeFails : Bool
  get2Fails : Bool
  interfere : Store → Store

/-- The string observed by `get_claim`: a failing kubectl call and an absent
value both yield the empty string, indistinguishably. -/
def getObs (fails : Bool) (st : Store) : String :=
  if fails then "" else st.getD ""

/-- Exit status of `get_claim`: `test -n` on the observed value. -/
def get_claim_ok (fails : Bool) (st : Store) : Bool :=
  getObs fails st != ""

/-- Model of `our_claim`: the first field of the stored value equals the identity. -/
def our_claim (H claimVal : String) : Bool :=
  field1 claimVal == H

/-- Model of `is_expired`: the timestamp field is empty, or `CLAIMSEC + D < NOW`. -/
def is_expired (D now : Nat) (claimVal : String) : Bool :=
  field2 claimVal == "" || decide (shellNat (field2 claimVal) + D < now)

/-- The wire format written by `make_claim`/`extend_claim`: `$\x7bH\x7d:$(now)`. -/
def encodeLease (c : String) (t : Nat) : String :=
  c ++ ":" ++ Nat.repr t

/-- The claim value this invocation writes. -/
def mkClaim (e : Env) : String := encodeLease e.H e.now

/-- Model of `make_claim`: a write without `--overwrite` — fails when the
key already has a value, or on an injected store failure. -/
def make_claim (e : Env) (st : Store) : Store × Bool :=
  if e.makeFails || st.isSome then (st, false) else (some (mkClaim e), true)

/-- Model of `extend_claim`: the overwrite write — it fails only on an
injected store failure. -/
def extend_claim (e : Env) (st : Store) : Store × Bool :=
  if e.extendFails then (st, false) else (some (mkClaim e), true)

/-- Model of `clear_claims`: removes the key; on failure the store is unchanged.  Its
exit status is ignored at every call site. -/
def clear_claims (e : Env) (st : Store) : Store × Bool :=
  if e.clearFails then (st, false) else (none, true)

/-- Result of the `claim` routine: its exit status (`claimed`), the store it
leaves behind, and the kubectl operations it attempted, in order. -/
structure ClaimResult where
  claimed : Bool
  store : Store
  ops : List Op
deriving Repr

/-- The expired branch of `claim`: `clear_claims` (status ignored), then
`make_claim || return 1`, then `sleep 1` (where concurrent writers may
interfere), then `get_claim && our_claim || return 1`. -/
def expired_path (e : Env) (st : Store) (ops0 : List Op) : ClaimResult :=
  let st1 := (clear_claims e st).1
  let r := make_claim e st1
  if r.2 then
    let st3 := e.interfere r.1
    { claimed := get_claim_ok e.get2Fails st3 && our_claim e.H (getObs e.get2Fails st3),
      store := st3,
      ops := ops0 ++ [Op.clear, Op.set (mkClaim e), Op.get] }
  else
    { claimed := false, store := r.1, ops := ops0 ++ [Op.clear, Op.set (mkClaim e)] }

/-- The `claim` routine of the script. -/
def claim (e : Env) : ClaimResult :=
  let obs1 := getObs e.get1Fails e.store0
  if obs1 == "" then
    -- no claims: `make_claim || return 1; return 0`
    let r := make_claim e e.store0
    { claimed := r.2, store := r.1, ops := [Op.get, Op.set (mkClaim e)] }
  else if our_claim e.H obs1 then
    -- `extend_claim && return 0`; on failure fall through to the expiry test
    let r := extend_claim e e.store0
    if r.2 then
      { claimed := true, store := r.1, ops := [Op.get, Op.set (mkClaim e)] }
    else if is_expired e.D e.now obs1 then
      expired_path e r.1 [Op.get, Op.set (mkClaim e)]
    else
      { claimed := false, store := r.1, ops := [Op.get, Op.set (mkClaim e)] }
  else if is_expired e.D e.now obs1 then
    expired_path e e.store0 [Op.get]
  else
    -- standby
    { claimed := false, store := e.store0, ops := [Op.get] }

/-- Result of one whole invocation: the exit status (`true` = exit 0 =
ready), the store left behind, and the operations attempted. -/
structure MainResult where
  exitZero : Bool
  store : Store
  ops : List Op
deriving Repr

/-- The top-level decision of the script: when the local listener is
`present`, report ready iff `claim` succeeds; otherwise re-check the lease,
clear it when held by self (status of the clear ignored), and report
not-ready. -/
def script_main (e : Env) (present : Bool) : MainResult :=
  if present then
    let r := claim e
    { exitZero := r.claimed, store := r.store, ops := r.ops }
  else
    let obs := getObs e.get1Fails e.store0
    if get_claim_ok e.get1Fails e.store0 && our_claim e.H obs then
      { exitZero := false, store := (clear_claims e e.store0).1, ops := [Op.get, Op.clear] }
    else
      { exitZero := false, store := e.store0, ops := [Op.get] }

/-- The characters `Nat.toDigits 10` produces, characterised via
`Nat.digits`. -/
def reprChars (n : Nat) : List Char :=
  if n = 0 then ['0'] else ((Nat.digits 10 n).reverse.map Nat.digitChar)

/-! ### Decimal printing and parsing -/

lemma digitChar_val : ∀ d < 10,
    (Nat.digitChar d).toNat - Char.toNat '0' = d ∧ (Nat.digitChar d).isDigit = true := by
  decide

lemma toDigitsCore_eq : ∀ (fuel n : Nat) (acc : List Char), n < fuel →
    Nat.toDigitsCore 10 fuel n acc = reprChars n ++ acc := by
  intro fuel
  induction fuel with
  | zero => intro n acc h; omega
  | succ f ih =>
    intro n acc h
    rw [Nat.toDigitsCore]
    by_cases hn : n / 10 = 0
    · simp only [hn, if_pos]
      by_cases h0 : n = 0
      · subst h0; rfl
      · have hdig : Nat.digits 10 n = [n % 10] := by
          rw [Nat.digits_def' (by norm_num : (1:ℕ) < 10) (Nat.pos_of_ne_zero h0), hn]
          simp
        simp [reprChars, h0, hdig]
    · simp only [hn, if_neg]
      have hpos : n ≠ 0 := by omega
      have hlt : n / 10 < f := by
        have := Nat.div_lt_self (Nat.pos_of_ne_zero hpos) (by norm_num : (1:ℕ) < 10)
        omega
      rw [ih (n / 10) _ hlt]
      have hdig : Nat.digits 10 n = n % 10 :: Nat.digits 10 (n / 10) :=
        Nat.digits_def' (by norm_num) (Nat.pos_of_ne_zero hpos)
      have hsplit : reprChars n = reprChars (n / 10) ++ [Nat.digitChar (n % 10)] := by
        simp [reprChars, hpos, hn, hdig]
      rw [hsplit]
      simp

lemma repr_data (n : Nat) : (Nat.repr n).data = reprChars n := by
  show (List.asString (Nat.toDigits 10 n)).data = reprChars n
  rw [Nat.toDigits, toDigitsCore_eq (n + 1) n [] (Nat.lt_succ_self n)]
  simp [List.asString]

lemma foldl_digits (n : Nat) : ∀ v : Nat,
    List.foldl (fun m c => m * 10 + (c.toNat - Char.toNat '0')) v
        ((Nat.digits 10 n).reverse.map Nat.digitChar)
      = v * 10 ^ (Nat.digits 10 n).length + n := by
  induction n using Nat.strong_induction_on with
  | _ n ih =>
    intro v
    by_cases h0 : n = 0
    · subst h0; simp
    · rw [Nat.digits_def' (by norm_num : (1:ℕ) < 10) (Nat.pos_of_ne_zero h0)]
      simp only [List.reverse_cons, List.map_append, List.foldl_append, List.map_cons,
        List.map_nil, List.foldl_cons, List.foldl_nil, List.length_cons]
      rw [ih (n / 10) (Nat.div_lt_self (Nat.pos_of_ne_zero h0) (by norm_num)) v]
      have hd := (digitChar_val (n % 10) (Nat.mod_lt n (by norm_num))).1
      rw [hd]
      have hmod : 10 * (n / 10) + n % 10 = n := Nat.div_add_mod n 10
      calc (v * 10 ^ (Nat.digits 10 (n / 10)).length + n / 10) * 10 + n % 10
          = v * (10 ^ (Nat.digits 10 (n / 10)).length * 10) + (10 * (n / 10) + n % 10) := by
            ring
        _ = v * 10 ^ ((Nat.digits 10 (n / 10)).length + 1) + n := by rw [hmod, pow_succ]

lemma reprChars_isDigit (n : Nat) : ∀ c ∈ reprChars n, c.isDigit = true := by
  intro c hc
  by_cases h0 : n = 0
  · subst h0; simp [reprChars] at hc; subst hc; decide
  · simp only [reprChars, if_neg h0, List.mem_map, List.mem_reverse] at hc
    obtain ⟨d, hd, rfl⟩ := hc
    exact (digitChar_val d (Nat.digits_lt_base (by norm_num) hd)).2

lemma reprChars_ne_nil (n : Nat) : reprChars n ≠ [] := by
  by_cases h0 : n = 0
  · subst h0; simp [reprChars]
  · simp only [reprChars, if_neg h0]
    simp [Nat.digits_ne_nil_iff_ne_zero, h0]

lemma shellNat_repr (n : Nat) : shellNat (Nat.repr n) = n := by
  have hdata : (Nat.repr n).data = reprChars n := repr_data n
  have hne : reprChars n ≠ [] := reprChars_ne_nil n
  have hall : (reprChars n).all Char.isDigit = true := by
    rw [List.all_eq_true]
    exact fun c hc => reprChars_isDigit n c hc
  rw [shellNat, hdata, if_pos ⟨hne, hall⟩, digitsVal]
  by_cases h0 : n = 0
  · subst h0; rfl
  · simp only [reprChars, if_neg h0]
    rw [foldl_digits n 0]
    simp

lemma repr_no_colon (n : Nat) : ':' ∉ (Nat.repr n).data := by
  rw [repr_data]
  intro h
  have := reprChars_isDigit n _ h
  exact absurd this (by decide)

/-! ### Field extraction over the wire format -/

lemma takeWhile_colon_append (l r : List Char) (h : ':' ∉ l) :
    (l ++ ':' :: r).takeWhile (fun c => c != ':') = l := by
  induction l with
  | nil => simp
  | cons a t ih =>
    have ha : a ≠ ':' := fun hh => h (by simp [hh])
    have ht : ':' ∉ t := fun hh => h (List.mem_cons_of_mem a hh)
    simp [List.takeWhile_cons, ha, ih ht]

lemma dropWhile_colon_append (l r : List Char) (h : ':' ∉ l) :
    (l ++ ':' :: r).dropWhile (fun c => c != ':') = ':' :: r := by
  induction l with
  | nil => simp
  | cons a t ih =>
    have ha : a ≠ ':' := fun hh => h (by simp [hh])
    have ht : ':' ∉ t := fun hh => h (List.mem_cons_of_mem a hh)
    simp [List.dropWhile_cons, ha, ih ht]

lemma takeWhile_colon_all (l : List Char) (h : ':' ∉ l) :
    l.takeWhile (fun c => c != ':') = l := by
  induction l with
  | nil => simp
  | cons a t ih =>
    have ha : a ≠ ':' := fun hh => h (by simp [hh])
    have ht : ':' ∉ t := fun hh => h (List.mem_cons_of_mem a hh)
    simp [List.takeWhile_cons, ha, ih ht]

lemma dropWhile_colon_all (l : List Char) (h : ':' ∉ l) :
    l.dropWhile (fun c => c != ':') = [] := by
  induction l with
  | nil => simp
  | cons a t ih =>
    have ha : a ≠ ':' := fun hh => h (by simp [hh])
    have ht : ':' ∉ t := fun hh => h (List.mem_cons_of_mem a hh)
    simp [List.dropWhile_cons, ha, ih ht]

lemma encode_data (c : String) (t : Nat) :
    (encodeLease c t).data = c.data ++ ':' :: (Nat.repr t).data := by
  have hcolon : (":" : String).data = [':'] := rfl
  simp [encodeLease, String.data_append, hcolon]

lemma field1_encodeLease (c : String) (t : Nat) (hc : ':' ∉ c.data) :
    field1 (encodeLease c t) = c := by
  rw [field1, encode_data, takeWhile_colon_append _ _ hc]

lemma field2_encodeLease (c : String) (t : Nat) (hc : ':' ∉ c.data) :
    field2 (encodeLease c t) = Nat.repr t := by
  rw [field2, encode_data, dropWhile_colon_append _ _ hc]
  rw [List.drop_one, List.tail_cons, takeWhile_colon_all _ (repr_no_colon t)]

lemma field1_no_colon (s : String) (h : ':' ∉ s.data) : field1 s = s := by
  rw [field1, takeWhile_colon_all _ h]

lemma field2_no_colon (s : String) (h : ':' ∉ s.data) : field2 s = "" := by
  rw [field2, dropWhile_colon_all _ h]
  rfl

lemma ne_empty_of_field2_ne (v : String) (h : field2 v ≠ "") : v ≠ "" := by
  intro hv
  subst hv
  exact h rfl

/-! ### Branch facts about the claim routine -/

lemma getObs_some (st : Store) (v : String) (h : st = some v) :
    getObs false st = v := by
  rw [h]
  rfl

/-- C2: a present well-formed lease held by self and within its window is
renewed by exactly one overwrite `Set` and no `Clear`; the outcome is the
success of that write, and the written value keeps the claimant, refreshing
only the timestamp. -/
theorem claim_fresh_self (e : Env) (v : String)
    (hget : e.get1Fails = false)
    (hst : e.store0 = some v)
    (hours : field1 v = e.H)
    (hts : field2 v ≠ "")
    (hfresh : e.now - shellNat (field2 v) ≤ e.D)
    (hH : ':' ∉ e.H.data) :
    (claim e).ops = [Op.get, Op.set (mkClaim e)] ∧
    ((claim e).claimed = true ↔ e.extendFails = false) ∧
    (e.extendFails = false → (claim e).store = some (mkClaim e)) ∧
    field1 (mkClaim e) = e.H ∧
    shellNat (field2 (mkClaim e)) = e.now := by
  have hobs : getObs e.get1Fails e.store0 = v := by rw [hget]; exact getObs_some _ _ hst
  have hv : v ≠ "" := ne_empty_of_field2_ne v hts
  have hour : our_claim e.H v = true := by simp [our_claim, hours]
  have hexp : is_expired e.D e.now v = false := by
    have hlt : ¬ shellNat (field2 v) + e.D < e.now := by omega
    simp [is_expired, hts, hlt]
  have hf1 : field1 (mkClaim e) = e.H := field1_encodeLease _ _ hH
  have hf2 : shellNat (field2 (mkClaim e)) = e.now := by
    rw [mkClaim, field2_encodeLease _ _ hH, shellNat_repr]
  cases hE : e.extendFails with
  | false =>
    simp [claim, hobs, hv, hour, extend_claim, hE, hf1, hf2]
  | true =>
    simp [claim, hobs, hv, hour, extend_claim, hE, hexp, hf1, hf2]

lemma field2_empty : field2 "" = "" := rfl

/-- C3: a present well-formed lease held by another identity and within its
window leaves the routine on standby: no write of any kind, store untouched,
not claimed. -/
theorem claim_standby_foreign_fresh (e : Env) (v : String)
    (hget : e.get1Fails = false)
    (hst : e.store0 = some v)
    (hours : field1 v ≠ e.H)
    (hts : field2 v ≠ "")
    (hfresh : e.now - shellNat (field2 v) ≤ e.D) :
    (claim e).claimed = false ∧ (claim e).store = e.store0 ∧ (claim e).ops = [Op.get] := by
  have hobs : getObs e.get1Fails e.store0 = v := by rw [hget]; exact getObs_some _ _ hst
  have hv : v ≠ "" := ne_empty_of_field2_ne v hts
  have hour : our_claim e.H v = false := by simp [our_claim, hours]
  have hexp : is_expired e.D e.now v = false := by
    have hlt : ¬ shellNat (field2 v) + e.D < e.now := by omega
    simp [is_expired, hts, hlt]
  simp [claim, hobs, hv, hour, hexp]

/-- Shared takeover fact: a present value not held by self and that the
expiry test rejects goes through `Clear`, `Set`, grace wait, re-verifying
`Get`, and claims exactly when the re-read confirms the local identity. -/
lemma claim_takeover (e : Env) (v : String)
    (hget : e.get1Fails = false)
    (hst : e.store0 = some v)
    (hv : v ≠ "")
    (hours : field1 v ≠ e.H)
    (hexp : is_expired e.D e.now v = true)
    (hclear : e.clearFails = false)
    (hmake : e.makeFails = false) :
    (claim e).ops = [Op.get, Op.clear, Op.set (mkClaim e), Op.get] ∧
    (claim e).store = e.interfere (some (mkClaim e)) ∧
    ((claim e).claimed = true ↔
      (getObs e.get2Fails (e.interfere (some (mkClaim e))) ≠ "" ∧
       field1 (getObs e.get2Fails (e.interfere (some (mkClaim e)))) = e.H)) := by
  have hobs : getObs e.get1Fails e.store0 = v := by rw [hget]; exact getObs_some _ _ hst
  simp [claim, hobs, hv, hours, hexp, expired_path, clear_claims, hclear, make_claim, hmake,
    get_claim_ok, our_claim, and_comm]

/-- C1: a present well-formed lease held by another identity and past its
window is taken over: `Clear`, then `Set` of `self:now`, then the grace
wait, then the re-verifying `Get`; the routine claims exactly when the
re-read value is present and names the local identity. -/
theorem claim_expired_foreign (e : Env) (v : String)
    (hget : e.get1Fails = false)
    (hst : e.store0 = some v)
    (hours : field1 v ≠ e.H)
    (hts : field2 v ≠ "")
    (hage : e.D < e.now - shellNat (field2 v))
    (hclear : e.clearFails = false)
    (hmake : e.makeFails = false) :
    (claim e).ops = [Op.get, Op.clear, Op.set (mkClaim e), Op.get] ∧
    (claim e).store = e.interfere (some (mkClaim e)) ∧
    ((claim e).claimed = true ↔
      (getObs e.get2Fails (e.interfere (some (mkClaim e))) ≠ "" ∧
       field1 (getObs e.get2Fails (e.interfere (some (mkClaim e)))) = e.H)) := by
  have hv : v ≠ "" := ne_empty_of_field2_ne v hts
  have hexp : is_expired e.D e.now v = true := by
    have hlt : shellNat (field2 v) + e.D < e.now := by omega
    simp [is_expired, hlt]
  exact claim_takeover e v hget hst hv hours hexp hclear hmake

/-- C4 (amended): any present lease — well-formed or not — that the expiry
test rejects and that is not renewed in place as a lease of self goes through the
takeover sequence `Clear`, `Set`, grace wait, re-verifying `Get`, claiming
exactly when the re-read confirms the local identity. -/
theorem claim_expired_not_self (e : Env) (v : String)
    (hget : e.get1Fails = false)
    (hst : e.store0 = some v)
    (hv : v ≠ "")
    (hours : field1 v ≠ e.H)
    (hexp : is_expired e.D e.now v = true)
    (hclear : e.clearFails = false)
    (hmake : e.makeFails = false) :
    (claim e).ops = [Op.get, Op.clear, Op.set (mkClaim e), Op.get] ∧
    ((claim e).claimed = true ↔
      (getObs e.get2Fails (e.interfere (some (mkClaim e))) ≠ "" ∧
       field1 (getObs e.get2Fails (e.interfere (some (mkClaim e)))) = e.H)) := by
  have h := claim_takeover e v hget hst hv hours hexp hclear hmake
  exact ⟨h.1, h.2.2⟩

/-- C5 (amended): a present value without the delimiter is not handled as an
absent lease: its timestamp field is empty, so the expiry test fires, and
when the value differs from the local identity the routine runs the full
takeover sequence, `Clear` and re-verifying `Get` included. -/
theorem claim_malformed_foreign (e : Env) (v : String)
    (hget : e.get1Fails = false)
    (hst : e.store0 = some v)
    (hv : v ≠ "")
    (hmal : ':' ∉ v.data)
    (hours : v ≠ e.H)
    (hclear : e.clearFails = false)
    (hmake : e.makeFails = false) :
    (claim e).ops = [Op.get, Op.clear, Op.set (mkClaim e), Op.get] ∧
    ((claim e).claimed = true ↔
      (getObs e.get2Fails (e.interfere (some (mkClaim e))) ≠ "" ∧
       field1 (getObs e.get2Fails (e.interfere (some (mkClaim e)))) = e.H)) := by
  have hf1 : field1 v = v := field1_no_colon v hmal
  have hf2 : field2 v = "" := field2_no_colon v hmal
  have hexp : is_expired e.D e.now v = true := by simp [is_expired, hf2]
  have h := claim_takeover e v hget hst hv (by rw [hf1]; exact hours) hexp hclear hmake
  exact ⟨h.1, h.2.2⟩

/-- C10: on the expired path, when the creation write that follows the
`Clear` fails, the routine gives up unclaimed but the lease of the previous
holder is already gone and stays gone — the shared state has changed under a
failed claim. -/
theorem claim_failed_set_after_clear (e : Env) (v : String)
    (hget : e.get1Fails = false)
    (hst : e.store0 = some v)
    (hv : v ≠ "")
    (hours : field1 v ≠ e.H)
    (hexp : is_expired e.D e.now v = true)
    (hclear : e.clearFails = false)
    (hmake : e.makeFails = true) :
    (claim e).claimed = false ∧ (claim e).store = none ∧
    (claim e).ops = [Op.get, Op.clear, Op.set (mkClaim e)] ∧
    (claim e).store ≠ e.store0 := by
  have hobs : getObs e.get1Fails (some v) = v := by rw [hget]; rfl
  simp [claim, hst, hobs, hv, hours, hexp, expired_path, clear_claims, hclear, make_claim, hmake,
    our_claim]

/-- C8: the integer test `CLAIMSEC + D < NOW` of the script agrees with the
expiry formula `now − claimedAt > leaseDuration` of the spec, an empty or
missing timestamp field counts as expired, and a lease aged exactly the
lease duration is not expired. -/
theorem is_expired_spec (D now : Nat) (v : String) :
    (is_expired D now v = true ↔ (field2 v = "" ∨ D < now - shellNat (field2 v))) ∧
    (field2 v ≠ "" → now - shellNat (field2 v) = D → is_expired D now v = false) := by
  constructor
  · simp only [is_expired, Bool.or_eq_true, beq_iff_eq, decide_eq_true_eq]
    constructor
    · rintro (h | h)
      · exact Or.inl h
      · exact Or.inr (by omega)
    · rintro (h | h)
      · exact Or.inl h
      · exact Or.inr (by omega)
  · intro h1 h2
    have hlt : ¬ shellNat (field2 v) + D < now := by omega
    simp [is_expired, h1, hlt]

/-- C9: the wire format round-trips: for any claimant without the delimiter
and any epoch, encoding as `claimant:epoch` and re-extracting the fields
returns the claimant verbatim and a timestamp field whose shell-arithmetic
value is the epoch. -/
theorem lease_roundtrip (c : String) (t : Nat) (hc : ':' ∉ c.data) :
    field1 (encodeLease c t) = c ∧ field2 (encodeLease c t) = Nat.repr t ∧
    shellNat (field2 (encodeLease c t)) = t :=
  ⟨field1_encodeLease c t hc, field2_encodeLease c t hc, by
    rw [field2_encodeLease c t hc, shellNat_repr]⟩

/-- C6 (amended): when every claim write of the invocation fails — the
creation write and the renewal overwrite alike — the invocation always ends
not-ready, whatever the store held and whatever the other calls did. -/
theorem not_ready_when_writes_fail (e : Env) (p : Bool)
    (hext : e.extendFails = true) (hmk : e.makeFails = true) :
    (script_main e p).exitZero = false := by
  cases p with
  | false =>
    simp only [script_main, Bool.false_eq_true, if_false]
    split <;> rfl
  | true =>
    have hc : (claim e).claimed = false := by
      simp only [claim]
      split
      · simp [make_claim, hmk]
      · split
        · have he : (extend_claim e e.store0).2 = false := by simp [extend_claim, hext]
          rw [he]
          simp only [Bool.false_eq_true, if_false]
          split
          · simp [expired_path, make_claim, clear_claims, hmk]
          · rfl
        · split
          · simp [expired_path, make_claim, clear_claims, hmk]
          · rfl
    simp [script_main, hc]

lemma clear_only_when_expired (e : Env)
    (h : is_expired e.D e.now (getObs e.get1Fails e.store0) = false) :
    Op.clear ∉ (claim e).ops := by
  simp only [claim]
  split
  · next h1 =>
      exfalso
      have hobs : getObs e.get1Fails e.store0 = "" := by simpa using h1
      rw [hobs] at h
      simp [is_expired, field2_empty] at h
  · split
    · split
      · simp
      · split
        · next h3 => exact absurd h3 (by simp [h])
        · simp
    · split
      · next h3 => exact absurd h3 (by simp [h])
      · simp

/-- C7: with a dead listener the script always reports not-ready and clears
the lease exactly when the re-checked value names the local identity, a
failing clear notwithstanding; with a live listener the exit status is the
claim outcome, and the routine never clears a lease the expiry test has not
rejected — in particular never on standby. -/
theorem script_main_decision (e : Env) (p : Bool) :
    (p = false →
      (script_main e p).exitZero = false ∧
      (Op.clear ∈ (script_main e p).ops ↔
        (getObs e.get1Fails e.store0 ≠ "" ∧ field1 (getObs e.get1Fails e.store0) = e.H))) ∧
    (p = true →
      (script_main e p).exitZero = (claim e).claimed ∧
      (is_expired e.D e.now (getObs e.get1Fails e.store0) = false →
        Op.clear ∉ (script_main e p).ops)) := by
  constructor
  · intro hp
    subst hp
    constructor
    · simp only [script_main, Bool.false_eq_true, if_false]
      split <;> rfl
    · simp only [script_main, Bool.false_eq_true, if_false]
      by_cases hcond :
          (get_claim_ok e.get1Fails e.store0 && our_claim e.H (getObs e.get1Fails e.store0)) = true
      · rw [if_pos hcond]
        simp only [get_claim_ok, our_claim, Bool.and_eq_true, bne_iff_ne, beq_iff_eq] at hcond
        simp [hcond]
      · rw [if_neg (by simpa using hcond)]
        simp only [get_claim_ok, our_claim, Bool.and_eq_true, bne_iff_ne, beq_iff_eq] at hcond
        simp [hcond]
  · intro hp
    subst hp
    refine ⟨rfl, fun hexp => ?_⟩
    have hmem := clear_only_when_expired e hexp
    simpa [script_main] using hmem

/-! ### Concrete runs: counterexamples and witnesses -/

/-- C4 counterexample: a lease held by self and aged past the window
(`pod-1:900` at `now = 1005` with `D = 30`) is renewed in place by the
overwrite write — the routine claims without any `Clear`, against the
claimed unconditional `Clear`-`Set`-`Get` sequence for expired leases. -/
theorem claim_expired_self_no_clear :
    30 < 1005 - shellNat (field2 "pod-1:900") ∧
    field1 "pod-1:900" = "pod-1" ∧
    (claim (Env.mk "pod-1" 30 1005 (some "pod-1:900") false false false false false id)).claimed
      = true ∧
    Op.clear ∉
      (claim (Env.mk "pod-1" 30 1005 (some "pod-1:900") false false false false false id)).ops := by
  decide

/-- C5 counterexample: the delimiter-free value `garbage` is not handled as
an absent lease: the routine runs the expired-lease takeover, `Clear` and
re-verifying `Get` included, against the claimed direct-`Set`-only branch. -/
theorem claim_malformed_goes_expired_route :
    ':' ∉ "garbage".data ∧
    (claim (Env.mk "pod-1" 30 1005 (some "garbage") false false false false false id)).ops
      = [Op.get, Op.clear,
         Op.set (mkClaim (Env.mk "pod-1" 30 1005 (some "garbage") false false false false false id)),
         Op.get] := by
  decide

/-- C6 counterexample: an invocation whose `Get` fails reads the lease as
absent; the follow-up creation write succeeds and the script exits ready —
a store-operation failure that does not degrade to not-ready. -/
theorem ready_despite_get_failure :
    (Env.mk "pod-1" 30 1005 none true false false false false id).get1Fails = true ∧
    (script_main (Env.mk "pod-1" 30 1005 none true false false false false id) true).exitZero
      = true := by
  decide

/-- Witness for C1 at lease `pod-2:900`, self `pod-1`, `now = 1005`,
`D = 30`. -/
theorem claim_expired_foreign_witness :
    (claim (Env.mk "pod-1" 30 1005 (some "pod-2:900") false false false false false id)).ops
      = [Op.get, Op.clear,
         Op.set (mkClaim (Env.mk "pod-1" 30 1005 (some "pod-2:900") false false false false false id)),
         Op.get] :=
  (claim_expired_foreign _ "pod-2:900" rfl rfl (by decide) (by decide) (by decide) rfl rfl).1

/-- Witness for C2 at lease `pod-1:1000`, self `pod-1`, `now = 1005`,
`D = 30`. -/
theorem claim_fresh_self_witness :
    (claim (Env.mk "pod-1" 30 1005 (some "pod-1:1000") false false false false false id)).ops
      = [Op.get,
         Op.set (mkClaim (Env.mk "pod-1" 30 1005 (some "pod-1:1000") false false false false false id))] :=
  (claim_fresh_self _ "pod-1:1000" rfl rfl (by decide) (by decide) (by decide) (by decide)).1

/-- Witness for C3 at lease `pod-2:1000`, self `pod-1`, `now = 1005`,
`D = 30`. -/
theorem claim_standby_witness :
    (claim (Env.mk "pod-1" 30 1005 (some "pod-2:1000") false false false false false id)).claimed
      = false ∧
    (claim (Env.mk "pod-1" 30 1005 (some "pod-2:1000") false false false false false id)).ops
      = [Op.get] :=
  ⟨(claim_standby_foreign_fresh _ "pod-2:1000" rfl rfl (by decide) (by decide) (by decide)).1,
   (claim_standby_foreign_fresh _ "pod-2:1000" rfl rfl (by decide) (by decide) (by decide)).2.2⟩

/-- Witness for the amended C4 at lease `pod-2:100`, self `pod-1`,
`now = 200`, `D = 30`. -/
theorem claim_expired_not_self_witness :
    (claim (Env.mk "pod-1" 30 200 (some "pod-2:100") false false false false false id)).ops
      = [Op.get, Op.clear,
         Op.set (mkClaim (Env.mk "pod-1" 30 200 (some "pod-2:100") false false false false false id)),
         Op.get] :=
  (claim_expired_not_self _ "pod-2:100" rfl rfl (by decide) (by decide) (by decide) rfl rfl).1

/-- Witness for the amended C5 at stored value `junk`, self `pod-1`. -/
theorem claim_malformed_foreign_witness :
    (claim (Env.mk "pod-1" 30 1005 (some "junk") false false false false false id)).ops
      = [Op.get, Op.clear,
         Op.set (mkClaim (Env.mk "pod-1" 30 1005 (some "junk") false false false false false id)),
         Op.get] :=
  (claim_malformed_foreign _ "junk" rfl rfl (by decide) (by decide) (by decide) rfl rfl).1

/-- Witness for the amended C6: with both writes failing the exit status is
not-ready. -/
theorem not_ready_when_writes_fail_witness :
    (script_main (Env.mk "pod-1" 30 1005 (some "pod-2:900") false true false true false id)
      true).exitZero = false :=
  not_ready_when_writes_fail _ true rfl rfl

/-- Witness for C7: a dead listener while self holds the lease clears it
and reports not-ready. -/
theorem script_main_decision_witness :
    (script_main (Env.mk "pod-1" 30 1005 (some "pod-1:1000") false false false false false id)
      false).exitZero = false ∧
    Op.clear ∈
      (script_main (Env.mk "pod-1" 30 1005 (some "pod-1:1000") false false false false false id)
        false).ops :=
  ⟨((script_main_decision _ false).1 rfl).1,
   (((script_main_decision _ false).1 rfl).2).mpr (by decide)⟩

/-- Witness for C8: a lease aged exactly `D` is not expired
(`pod-2:1000` at `now = 1030`, `D = 30`). -/
theorem is_expired_spec_witness :
    is_expired 30 1030 "pod-2:1000" = false :=
  (is_expired_spec 30 1030 "pod-2:1000").2 (by decide) (by decide)

/-- Witness for C9 at `("pod-1", 1000)`. -/
theorem lease_roundtrip_witness :
    field1 (encodeLease "pod-1" 1000) = "pod-1" ∧
    shellNat (field2 (encodeLease "pod-1" 1000)) = 1000 :=
  ⟨(lease_roundtrip "pod-1" 1000 (by decide)).1,
   (lease_roundtrip "pod-1" 1000 (by decide)).2.2⟩

/-- Witness for C10 at lease `pod-2:900`, self `pod-1`, `now = 1005`,
`D = 30`, with the creation write failing. -/
theorem claim_failed_set_after_clear_witness :
    (claim (Env.mk "pod-1" 30 1005 (some "pod-2:900") false false false true false id)).store
      = none :=
  (claim_failed_set_after_clear _ "pod-2:900" rfl rfl (by decide) (by decide) (by decide)
    rfl rfl).2.1

end SwitchboardLeader
